import Mathlib

/-!
Verification development for the Cursor-Trading-Bot repository.

Shallow embedding conventions:
* Python floats are modelled as `ℚ` wherever the source only adds, multiplies,
  divides and compares; `ℝ` (with `Real.sqrt`, `Real.log`) is used where the
  source takes square roots or logarithms.
* Stateful code (the backtest loops, the risk manager, the ML model) is
  modelled by explicit state passing: a Python method that mutates `self` or a
  caller-supplied DataFrame becomes a function returning the updated state.
* Fallible code returns `Except String α`; an uncaught Python exception is an
  `Except.error`.
* Wall-clock time (`datetime.now()`) is modelled by abstract `ℕ` timestamps;
  the daily-reset logic of the risk manager never fires inside a single
  simulated run, so `update_daily_metrics` is the identity here.
-/

open scoped Classical

/-! ## RiskManager (src/src/bot/risk_manager.py) -/

/-- Position metadata stored by `RiskManager.open_positions`. -/
structure PosInfo where
  entryPrice : ℚ
  currentPrice : ℚ
  positionSize : ℚ
  entryTime : ℕ
deriving DecidableEq

/-- Mutable state of `RiskManager`: daily trade count, daily realized pnl and
the open-position map (an association list, keyed by symbol). -/
structure RiskState where
  dailyTrades : ℕ
  dailyPnl : ℚ
  openPositions : List (String × PosInfo)
deriving DecidableEq

/-- RiskManager.calculate_position_size: returns 0 once the daily trade limit
is reached, otherwise `balance * (base + (max - base) * confidence) / 100`
capped at the balance.  `currentPrice` is accepted and ignored, as in the
source. -/
def calculatePositionSize (dailyTrades maxDailyTrades : ℕ)
    (accountBalance currentPrice confidence baseRisk maxRisk : ℚ) : ℚ :=
  if maxDailyTrades ≤ dailyTrades then 0
  else
    min (accountBalance * ((baseRisk + (maxRisk - baseRisk) * confidence) / 100))
      accountBalance

/-- RiskManager.update_position: records the open position under its symbol
and increments the daily trade counter. -/
def updatePosition (rs : RiskState) (symbol : String)
    (entryPrice currentPrice positionSize : ℚ) (now : ℕ) : RiskState :=
  { rs with
    openPositions :=
      (rs.openPositions.filter (fun p => p.1 ≠ symbol)) ++
        [(symbol, ⟨entryPrice, currentPrice, positionSize, now⟩)]
    dailyTrades := rs.dailyTrades + 1 }

/-! ## Signal fusion (src/backtest/backtest_engine.py, run_backtest) -/

/-- Signal combination of the main engine: 1 if either source is positive,
else -1 if either source is negative, else 0. -/
def fuseSignal (macdSignal mlSignal : ℚ) : Int :=
  if 0 < macdSignal ∨ 0 < mlSignal then 1
  else if macdSignal < 0 ∨ mlSignal < 0 then -1
  else 0

/-! ## BacktestEngine.run_backtest (src/backtest/backtest_engine.py) -/

/-- One input step of the main simulation loop: the candle timestamp and close
price, plus the two per-step signal-source outputs (the Bollinger strategy
recommendation and the ML prediction) that the loop fuses.  The loop is
embedded parametrically in the per-step signal values; the signal sources
themselves are embedded separately below. -/
structure StepIn where
  ts : ℕ
  close : ℚ
  macd : ℚ
  ml : ℚ
deriving DecidableEq

/-- Completed-trade record appended by the main loop on position exit (the
`trade` dict of run_backtest with its exit fields filled in). -/
structure TradeRec where
  entryDate : ℕ
  entryPrice : ℚ
  size : ℚ
  dirLong : Bool
  exitDate : ℕ
  exitPrice : ℚ
  pnl : ℚ
  returnPct : ℚ
deriving DecidableEq

/-- State of BacktestEngine.run_backtest across loop iterations:
`current_balance`, `current_position` (signed size), the pending `trade` dict
fields recorded at entry, the closed-trade log, the equity curve and the risk
manager's daily trade counter (which the loop reads via
calculate_position_size but never increments). -/
structure EngState where
  balance : ℚ
  position : ℚ
  entryDate : ℕ
  entryPrice : ℚ
  pendSize : ℚ
  pendDirLong : Bool
  trades : List TradeRec
  equity : List ℚ
  dailyTrades : ℕ
deriving DecidableEq

/-- Risk configuration consumed by the loop (`max_daily_trades`,
`base_risk_per_trade`, `max_risk_per_trade`). -/
structure RiskCfg where
  maxDailyTrades : ℕ
  baseRisk : ℚ
  maxRisk : ℚ
deriving DecidableEq

/-- Risk configuration hard-coded in BacktestEngine.__init__. -/
def mainCfg : RiskCfg := ⟨100, 1, 5⟩

/-- Body of one non-skipped iteration of BacktestEngine.run_backtest: fuse the
signals, open when flat on a non-neutral signal (confidence hard-coded to 1.0),
close on an opposite signal, then append `current_balance` to the equity
curve. -/
def mainStep (cfg : RiskCfg) (st : EngState) (inp : StepIn) : EngState :=
  let fs : Int := fuseSignal inp.macd inp.ml
  let st1 :=
    if fs ≠ 0 ∧ st.position = 0 then
      let size := calculatePositionSize st.dailyTrades cfg.maxDailyTrades
        st.balance inp.close 1 cfg.baseRisk cfg.maxRisk
      { st with
        position := if 0 < fs then size else -size
        entryDate := inp.ts
        entryPrice := inp.close
        pendSize := size
        pendDirLong := 0 < fs }
    else if st.position ≠ 0 ∧
        ((0 < st.position ∧ fs < 0) ∨ (st.position < 0 ∧ 0 < fs)) then
      let pnl := st.position * (inp.close - st.entryPrice)
      { st with
        balance := st.balance + pnl
        position := 0
        trades := st.trades ++
          [⟨st.entryDate, st.entryPrice, st.pendSize, st.pendDirLong,
            inp.ts, inp.close, pnl, pnl / (|st.position| * st.entryPrice) * 100⟩] }
    else st
  { st1 with equity := st1.equity ++ [st1.balance] }

/-- The `for i in range(len(data))` loop of run_backtest: a step whose visible
prefix has fewer than 26 rows is skipped entirely (`continue` fires before the
equity append). -/
def mainLoop (cfg : RiskCfg) : EngState → ℕ → List StepIn → EngState
  | st, _, [] => st
  | st, i, inp :: rest =>
    mainLoop cfg (if i + 1 < 26 then st else mainStep cfg st inp) (i + 1) rest

/-- Loop state as initialized at the top of run_backtest. -/
def initState (initialBalance : ℚ) : EngState :=
  ⟨initialBalance, 0, 0, 0, 0, true, [], [initialBalance], 0⟩

/-- BacktestEngine.run_backtest as a function of the initial balance and the
per-step inputs. -/
def runBacktest (initialBalance : ℚ) (data : List StepIn) : EngState :=
  mainLoop mainCfg (initState initialBalance) 0 data

/-! ## CoinGeckoBacktestEngine.run_backtest
(src/backtest/coingecko_backtest_engine.py) -/

/-- One input step of the CoinGecko loop: timestamp, close and the single
strategy signal. -/
structure CgIn where
  ts : ℕ
  close : ℚ
  signal : Int
deriving DecidableEq

/-- Trade-record type tags used by the CoinGecko engine. -/
inductive CgTradeType where
  | buy
  | sell
  | closeLong
  | closeShort
deriving DecidableEq

/-- Trade record appended by CoinGeckoBacktestEngine._execute_trade. -/
structure CgTrade where
  ts : ℕ
  ttype : CgTradeType
  price : ℚ
  size : ℚ
  pnl : ℚ
deriving DecidableEq

/-- State of CoinGeckoBacktestEngine.run_backtest across iterations. -/
structure CgState where
  balance : ℚ
  position : Int
  positionSize : ℚ
  entryPrice : ℚ
  trades : List CgTrade
  equity : List ℚ
deriving DecidableEq

/-- CoinGeckoBacktestEngine._execute_trade. -/
def cgExecuteTrade (st : CgState) (inp : CgIn) : CgState :=
  if inp.signal = 1 ∧ st.position ≤ 0 then
    let st1 :=
      if st.position < 0 then
        let pnl := (st.entryPrice - inp.close) * |st.positionSize|
        { st with
          balance := st.balance + pnl
          trades := st.trades ++
            [⟨inp.ts, CgTradeType.closeShort, inp.close, |st.positionSize|, pnl⟩] }
      else st
    let size := st1.balance * (1 / 10) / inp.close
    { st1 with
      positionSize := size
      entryPrice := inp.close
      position := 1
      trades := st1.trades ++ [⟨inp.ts, CgTradeType.buy, inp.close, size, 0⟩] }
  else if inp.signal = -1 ∧ 0 ≤ st.position then
    let st1 :=
      if 0 < st.position then
        let pnl := (inp.close - st.entryPrice) * st.positionSize
        { st with
          balance := st.balance + pnl
          trades := st.trades ++
            [⟨inp.ts, CgTradeType.closeLong, inp.close, st.positionSize, pnl⟩] }
      else st
    let size := st1.balance * (1 / 10) / inp.close
    { st1 with
      positionSize := size
      entryPrice := inp.close
      position := -1
      trades := st1.trades ++ [⟨inp.ts, CgTradeType.sell, inp.close, size, 0⟩] }
  else st

/-- CoinGeckoBacktestEngine._update_equity_curve: appends mark-to-market
equity. -/
def cgUpdateEquity (st : CgState) (close : ℚ) : CgState :=
  let eq :=
    if 0 < st.position then st.balance + (close - st.entryPrice) * st.positionSize
    else if st.position < 0 then
      st.balance + (st.entryPrice - close) * |st.positionSize|
    else st.balance
  { st with equity := st.equity ++ [eq] }

/-- Body of one non-skipped iteration of the CoinGecko loop. -/
def cgStep (st : CgState) (inp : CgIn) : CgState :=
  cgUpdateEquity (cgExecuteTrade st inp) inp.close

/-- The CoinGecko simulation loop; a step whose visible prefix has fewer than
20 rows is skipped entirely (`continue` fires before the equity append). -/
def cgLoop : CgState → ℕ → List CgIn → CgState
  | st, _, [] => st
  | st, i, inp :: rest =>
    cgLoop (if i + 1 < 20 then st else cgStep st inp) (i + 1) rest

/-- CoinGecko loop state as initialized at the top of run_backtest. -/
def cgInitState (initialBalance : ℚ) : CgState :=
  ⟨initialBalance, 0, 0, 0, [], [initialBalance]⟩

/-- CoinGeckoBacktestEngine.run_backtest as a function of the initial balance
and the per-step inputs. -/
def cgRunBacktest (initialBalance : ℚ) (data : List CgIn) : CgState :=
  cgLoop (cgInitState initialBalance) 0 data

/-! ## Metrics (BacktestEngine.calculate_metrics and
CoinGeckoBacktestEngine._calculate_metrics) -/

/-- Minimum of a list with default 0 for the empty list (the equity curve is
never empty when calculate_metrics runs: it starts as `[initial_balance]`). -/
def minD : List ℚ → ℚ
  | [] => 0
  | x :: xs => xs.foldl min x

/-- Maximum of a list with default 0 for the empty list. -/
def maxD : List ℚ → ℚ
  | [] => 0
  | x :: xs => xs.foldl max x

/-- Drawdown terms of BacktestEngine.calculate_metrics:
`(equity_curve - equity_curve.expanding().max()) / equity_curve.expanding().max()`,
one term per equity sample, with the running peak threaded through. -/
def ddTerms : ℚ → List ℚ → List ℚ
  | _, [] => []
  | peak, v :: rest =>
    let p := max peak v
    (v - p) / p :: ddTerms p rest

/-- The `drawdowns.min()` value of BacktestEngine.calculate_metrics (the
running peak starts at the first equity sample). -/
def maxDrawdownMain (equity : List ℚ) : ℚ :=
  match equity with
  | [] => 0
  | v :: _ => minD (ddTerms v equity)

/-- Modelled from the spec: "max_drawdown = max over the equity curve of
(running_peak − value) / running_peak, expressed as a percentage, where
running_peak is the maximum equity value seen so far."  This is the
spec-side definition used to compare both engines against the claim. -/
def specDDTerms : ℚ → List ℚ → List ℚ
  | _, [] => []
  | peak, v :: rest =>
    let p := max peak v
    (p - v) / p * 100 :: specDDTerms p rest

/-- Modelled from the spec: the claimed max_drawdown percentage. -/
def specMaxDrawdown (equity : List ℚ) : ℚ :=
  match equity with
  | [] => 0
  | v :: _ => maxD (specDDTerms v equity)

/-- Max-drawdown loop of CoinGeckoBacktestEngine._calculate_metrics: the peak
starts at `equity_array[0]`, every value updates the peak and contributes
`(peak - value) / peak * 100`, and the maximum of those contributions (starting
from 0) is returned. -/
def cgMaxDrawdown (equity : List ℚ) : ℚ :=
  (equity.foldl
    (fun pm v =>
      let p := max pm.1 v
      (p, max pm.2 ((p - v) / p * 100)))
    (equity.headD 0, 0)).2

/-- Result record of BacktestEngine.calculate_metrics.  `profitFactor` is
`Option ℚ` with `none` standing for the `float('inf')` sentinel returned when
the gross loss is zero.  `sharpe` is real-valued because the source divides by
a floating-point standard deviation. -/
structure Metrics where
  totalTrades : ℕ
  winRate : ℚ
  profitFactor : Option ℚ
  sharpe : ℝ
  maxDrawdown : ℚ
  totalReturn : ℚ

/-- Mean of the trade return percentages. -/
def qListMean (l : List ℚ) : ℚ := l.sum / l.length

/-- Sample variance (pandas `Series.std` squares this with `ddof=1`).  For a
single-element list the source's std is float NaN; in `ℚ` the division by
zero below yields 0, which only affects the sharpe field, touched by no
claim. -/
def qSampleVar (l : List ℚ) : ℚ :=
  ((l.map (fun x => (x - qListMean l) ^ 2)).sum) / (l.length - 1 : ℕ)

/-- BacktestEngine.calculate_metrics.  With an empty trade log it returns the
all-zero record; otherwise win rate, profit factor (infinity sentinel when the
gross loss is zero), sharpe ratio, max drawdown (note: `drawdowns.min()`, a
non-positive quantity, times 100) and total return. -/
noncomputable def calculateMetrics (trades : List TradeRec) (equity : List ℚ)
    (currentBalance initialBalance : ℚ) : Metrics :=
  match trades with
  | [] => ⟨0, 0, some 0, 0, 0, 0⟩
  | _ =>
    let totalTrades := trades.length
    let winning := (trades.filter (fun t => 0 < t.pnl)).length
    let winRate : ℚ := (winning : ℚ) / (totalTrades : ℚ)
    let totalProfit := ((trades.filter (fun t => 0 < t.pnl)).map (fun t => t.pnl)).sum
    let totalLoss := |((trades.filter (fun t => t.pnl < 0)).map (fun t => t.pnl)).sum|
    let profitFactor := if totalLoss ≠ 0 then some (totalProfit / totalLoss) else none
    let returns := trades.map (fun t => t.returnPct)
    let sharpe : ℝ :=
      if qSampleVar returns ≠ 0 then
        (qListMean returns : ℝ) / Real.sqrt ((qSampleVar returns : ℚ) : ℝ)
      else 0
    ⟨totalTrades, winRate * 100, profitFactor, sharpe,
      maxDrawdownMain equity * 100,
      (currentBalance - initialBalance) / initialBalance * 100⟩

/-! ## BollingerBandStrategy (src/src/bot/strategy.py)

The strategy fixes `window = 10` and `window_dev = 0.5` in its constructor,
but the band computation is embedded parametrically in `w` and `k`.  The `ta`
library computes the middle band as a rolling mean and the upper band as
rolling mean plus `k` times the rolling population standard deviation
(`ddof=0`), both with `min_periods = w`, so rows with fewer than `w` prior
closes carry NaN bands and a NaN comparison is false in pandas. -/

/-- Rolling window of the last `w` closes ending at row `i`. -/
def rollWindow (w i : ℕ) (closes : List ℚ) : List ℚ :=
  (closes.take (i + 1)).drop (i + 1 - w)

/-- Mean of a rational list (0 for the empty list, matching 0/0 = 0). -/
def qMean (l : List ℚ) : ℚ := l.sum / l.length

/-- Population variance (`ddof=0`) of a rational list. -/
def qVarPop (l : List ℚ) : ℚ :=
  ((l.map (fun x => (x - qMean l) ^ 2)).sum) / l.length

/-- Signal of one row of BollingerBandStrategy.generate_signals.  The source
first sets `signal = 1` where `close <= bb_middle` and then overwrites with
`signal = -1` where `close >= bb_upper`, so the sell condition takes
precedence; rows with NaN bands (fewer than `w` closes available) keep
`signal = 0`. -/
noncomputable def bbRowSignal (w : ℕ) (k : ℚ) (closes : List ℚ) (i : ℕ) : Int :=
  if i + 1 < w then 0
  else
    let win := rollWindow w i closes
    let m := qMean win
    let v := qVarPop win
    let c := closes.getD i 0
    if ((m : ℝ) + (k : ℝ) * Real.sqrt ((v : ℚ) : ℝ)) ≤ (c : ℝ) then -1
    else if c ≤ m then 1
    else 0

/-- The `signal` column produced by generate_signals. -/
noncomputable def bbSignalCol (w : ℕ) (k : ℚ) (closes : List ℚ) : List Int :=
  (List.range closes.length).map (bbRowSignal w k closes)

/-- BollingerBandStrategy.get_trade_recommendation: `(0, 0.0)` on an empty
frame, otherwise the last row's signal with confidence 1.0 exactly when that
signal is nonzero. -/
noncomputable def getTradeRecommendation (w : ℕ) (k : ℚ) (closes : List ℚ) :
    Int × ℚ :=
  match closes with
  | [] => (0, 0)
  | _ :: _ =>
    let s := (bbSignalCol w k closes).getLastD 0
    (s, if s ≠ 0 then 1 else 0)

/-! ## MLModel (src/src/ml/model.py)

A pandas DataFrame is an ordered association list of named columns; a column
is a list of `Option ℝ` entries with `none` standing for NaN.  Column
assignment (`df[name] = ...`) replaces an existing column in place or appends
a new one, mirroring pandas.  The fitted scaler-plus-classifier pipeline
(sklearn externals) is abstracted as a function field `clf` of the model
state; `train` replaces it through an abstract fitting function. -/

/-- DataFrame column: one `Option ℝ` entry per row, `none` = NaN. -/
abbrev Col := List (Option ℝ)

/-- DataFrame: ordered named columns. -/
abbrev Frame := List (String × Col)

/-- Column lookup (`df[name]`), `none` when the column is absent (a Python
KeyError site). -/
def getCol : Frame → String → Option Col
  | [], _ => none
  | (m, c) :: rest, n => if m = n then some c else getCol rest n

/-- Column presence test. -/
def hasCol (df : Frame) (n : String) : Bool := (getCol df n).isSome

/-- Column assignment (`df[name] = col`): replace in place, else append. -/
def setCol : Frame → String → Col → Frame
  | [], n, c => [(n, c)]
  | (m, c0) :: rest, n, c =>
    if m = n then (m, c) :: rest else (m, c0) :: setCol rest n c

/-- Row count of a frame (`len(df)`), read off the first column. -/
def nrows : Frame → ℕ
  | [] => 0
  | (_, c) :: _ => c.length

/-- Lift a binary real operation to NaN-propagating entries. -/
def o2 (f : ℝ → ℝ → ℝ) : Option ℝ → Option ℝ → Option ℝ
  | some a, some b => some (f a b)
  | _, _ => none

/-- Entry-wise combination of two columns. -/
def zip2 (f : ℝ → ℝ → ℝ) (xs ys : Col) : Col := List.zipWith (o2 f) xs ys

/-- NaN-propagating map over a column. -/
def mapO (f : ℝ → ℝ) (xs : Col) : Col := xs.map (Option.map f)

/-- pandas `Series.pct_change(periods=k)`: entry `i` is
`x[i] / x[i-k] - 1`, NaN for the first `k` rows. -/
noncomputable def pctChangeK (k : ℕ) (xs : Col) : Col :=
  (List.range xs.length).map (fun i =>
    if i < k then none
    else o2 (fun a b => a / b - 1) (xs.getD i none) (xs.getD (i - k) none))

/-- pandas `Series.diff(k)`. -/
def diffK (k : ℕ) (xs : Col) : Col :=
  (List.range xs.length).map (fun i =>
    if i < k then none
    else o2 (fun a b => a - b) (xs.getD i none) (xs.getD (i - k) none))

/-- pandas `Series.shift(-k)`: entry `i` is `x[i+k]`, NaN past the end. -/
def shiftBack (k : ℕ) (xs : Col) : Col :=
  (List.range xs.length).map (fun i => xs.getD (i + k) none)

/-- Mean of a real list. -/
noncomputable def rMean (l : List ℝ) : ℝ := l.sum / l.length

/-- Variance of a real list with the given delta degrees of freedom. -/
noncomputable def rVar (ddof : ℕ) (l : List ℝ) : ℝ :=
  ((l.map (fun x => (x - rMean l) ^ 2)).sum) / ((l.length - ddof : ℕ) : ℝ)

/-- All-defined check of a window (pandas `min_periods` counts non-NaN
entries; a full window of size `w` meets `min_periods = w` exactly when every
entry is defined). -/
def allSome (l : Col) : Option (List ℝ) := l.mapM id

/-- Window of the last `w` entries ending at row `i` of a column. -/
def winAtO (w i : ℕ) (xs : Col) : Col := (xs.take (i + 1)).drop (i + 1 - w)

/-- pandas `Series.rolling(w).mean()` with `min_periods = w`. -/
noncomputable def rollMeanO (w : ℕ) (xs : Col) : Col :=
  (List.range xs.length).map (fun i =>
    if i + 1 < w then none
    else (allSome (winAtO w i xs)).map rMean)

/-- pandas `Series.rolling(w).std(ddof)` with `min_periods = w`. -/
noncomputable def rollStdO (w ddof : ℕ) (xs : Col) : Col :=
  (List.range xs.length).map (fun i =>
    if i + 1 < w then none
    else (allSome (winAtO w i xs)).map (fun l => Real.sqrt (rVar ddof l)))

/-- pandas `Series.ewm(alpha, min_periods, adjust=False).mean()` as a fold:
NaN inputs keep the previous state; output is NaN until `minp` defined
observations have been seen. -/
def emaGo (α : ℝ) (minp : ℕ) : Option ℝ → ℕ → Col → Col
  | _, _, [] => []
  | st, cnt, x :: rest =>
    let st1 : Option ℝ :=
      match x, st with
      | none, s => s
      | some v, none => some v
      | some v, some s => some ((1 - α) * s + α * v)
    let cnt1 := cnt + (if x.isSome then 1 else 0)
    (if minp ≤ cnt1 then st1 else none) :: emaGo α minp st1 cnt1 rest

/-- Exponentially weighted mean with `alpha = 2/(w+1)` (pandas `span = w`). -/
noncomputable def emaSpan (w : ℕ) (xs : Col) : Col :=
  emaGo (2 / ((w : ℝ) + 1)) w none 0 xs

/-- Target column of MLModel.prepare_features:
`(close.pct_change(5).shift(-5) > 0).astype(int)` — a NaN forward return
compares false and becomes 0. -/
noncomputable def targetCol (close : Col) : Col :=
  (shiftBack 5 (pctChangeK 5 close)).map (fun o =>
    some (match o with
      | some x => if 0 < x then (1 : ℝ) else 0
      | none => 0))

/-- The `returns` column. -/
noncomputable def returnsCol (close : Col) : Col := pctChangeK 1 close

/-- The `log_returns` column: `np.log(close).diff()`. -/
noncomputable def logReturnsCol (close : Col) : Col :=
  diffK 1 (mapO Real.log close)

/-- The `volatility` column: `returns.rolling(20).std()` (sample std). -/
noncomputable def volatilityCol (close : Col) : Col :=
  rollStdO 20 1 (returnsCol close)

/-- The `volume_ma` column: `volume.rolling(20).mean()`. -/
noncomputable def volumeMaCol (volume : Col) : Col := rollMeanO 20 volume

/-- The `price_ma` column: `close.rolling(20).mean()`. -/
noncomputable def priceMaCol (close : Col) : Col := rollMeanO 20 close

/-- The `rsi` column, following `ta.momentum.RSIIndicator` (window 14):
positive and negative parts of the one-step diff (a NaN diff contributes 0 on
both sides), Wilder smoothing via `ewm(alpha=1/14, min_periods=14,
adjust=False)`, then `100 - 100 / (1 + up/down)`. -/
noncomputable def rsiCol (close : Col) : Col :=
  let d := diffK 1 close
  let up : Col := d.map (fun o =>
    some (match o with | some x => if 0 < x then x else 0 | none => 0))
  let dn : Col := d.map (fun o =>
    some (match o with | some x => if x < 0 then -x else 0 | none => 0))
  zip2 (fun a b => 100 - 100 / (1 + a / b))
    (emaGo (1 / 14) 14 none 0 up) (emaGo (1 / 14) 14 none 0 dn)

/-- The `macd` column, following `ta.trend.MACD` defaults (12/26). -/
noncomputable def macdCol (close : Col) : Col :=
  zip2 (fun a b => a - b) (emaSpan 12 close) (emaSpan 26 close)

/-- The `macd_signal` column: 9-span EMA of the MACD line. -/
noncomputable def macdSignalCol (close : Col) : Col := emaSpan 9 (macdCol close)

/-- The `bb_upper` column, following `ta.volatility.BollingerBands` defaults
(window 20, deviation 2, population std). -/
noncomputable def bbUpperCol (close : Col) : Col :=
  zip2 (fun m s => m + 2 * s) (rollMeanO 20 close) (rollStdO 20 0 close)

/-- The `bb_lower` column. -/
noncomputable def bbLowerCol (close : Col) : Col :=
  zip2 (fun m s => m - 2 * s) (rollMeanO 20 close) (rollStdO 20 0 close)

/-- The feature columns selected by MLModel (`self.feature_columns`). -/
def featureNames : List String :=
  ["returns", "log_returns", "volatility", "volume_ma", "price_ma",
   "rsi", "macd", "macd_signal", "bb_upper", "bb_lower", "volume", "close"]

/-- The eleven columns prepare_features writes into the caller's frame: the
target plus the ten engineered indicator columns. -/
def writtenNames : List String :=
  ["target", "returns", "log_returns", "volatility", "volume_ma", "price_ma",
   "rsi", "macd", "macd_signal", "bb_upper", "bb_lower"]

/-- Forward fill of a column (pandas `fillna(method='ffill')`). -/
def ffillGo : Option ℝ → Col → Col
  | _, [] => []
  | last, x :: rest =>
    match x with
    | some v => some v :: ffillGo (some v) rest
    | none => last :: ffillGo last rest

/-- 'ffill' then `fillna(0)`. -/
def ffill0 (xs : Col) : Col :=
  (ffillGo none xs).map (fun o => some (o.getD 0))

/-- MLModel.prepare_features.  It assigns the target and the ten indicator
columns into the caller's frame one `df[...] = ...` statement at a time, then
selects and NaN-fills the feature columns into a fresh frame.  The first
component of the result is the caller's frame as left behind by the call —
including the columns already assigned when a lookup of a missing base column
raises (`Except.error` carries the missing column name). -/
noncomputable def prepareFeatures (df : Frame) : Frame × Except String Frame :=
  match getCol df "close" with
  | none => (df, Except.error "close")
  | some c =>
    let df1 := setCol df "target" (targetCol c)
    let df2 := setCol df1 "returns" (returnsCol c)
    let df3 := setCol df2 "log_returns" (logReturnsCol c)
    let df4 := setCol df3 "volatility" (volatilityCol c)
    match getCol df4 "volume" with
    | none => (df4, Except.error "volume")
    | some v =>
      let df5 := setCol df4 "volume_ma" (volumeMaCol v)
      let df6 := setCol df5 "price_ma" (priceMaCol c)
      let df7 := setCol df6 "rsi" (rsiCol c)
      let df8 := setCol df7 "macd" (macdCol c)
      let df9 := setCol df8 "macd_signal" (macdSignalCol c)
      let df10 := setCol df9 "bb_upper" (bbUpperCol c)
      let df11 := setCol df10 "bb_lower" (bbLowerCol c)
      let feats : Frame :=
        featureNames.map (fun n => (n, ffill0 ((getCol df11 n).getD [])))
      (df11, Except.ok feats)

/-- State of MLModel: the trained flag and the fitted scaler-plus-classifier
pipeline, abstracted as a function from the latest feature row to
`(prediction, probability_of_0, probability_of_1)`. -/
structure MLState where
  isTrained : Bool
  clf : Frame → ℚ × ℚ × ℚ

/-- The `features.iloc[-1:]` frame: each column reduced to its last entry. -/
def lastRowFrame (f : Frame) : Frame :=
  f.map (fun p => (p.1, [p.2.getLastD none]))

/-- MLModel.predict.  If untrained it returns `(0.0, 0.0)` before touching
the frame; any exception inside (feature preparation on a frame missing a
base column) is caught and surfaced as `(0.0, 0.0)`; otherwise the binary
prediction is mapped to a trading signal through the 0.6 confidence
threshold.  The first component is the caller's frame after the call. -/
noncomputable def predictModel (m : MLState) (df : Frame) : Frame × (ℚ × ℚ) :=
  if m.isTrained = false then (df, (0, 0))
  else
    match prepareFeatures df with
    | (df1, Except.error _) => (df1, (0, 0))
    | (df1, Except.ok feats) =>
      let r := m.clf (lastRowFrame feats)
      if r.1 = 1 ∧ 6 / 10 < r.2.2 then (df1, (1, r.2.2))
      else if r.1 = 0 ∧ 6 / 10 < r.2.1 then (df1, (-1, r.2.1))
      else (df1, (0, max r.2.1 r.2.2))

/-- Truncation of the last `k` rows (`.iloc[:-k]`). -/
def dropLastK (k : ℕ) (xs : List α) : List α := xs.take (xs.length - k)

/-- Row truncation of a frame. -/
def frameDropLast (k : ℕ) (f : Frame) : Frame :=
  f.map (fun p => (p.1, dropLastK k p.2))

/-- Error test on an `Except`. -/
def isErr : Except String α → Bool
  | Except.error _ => true
  | Except.ok _ => false

/-- MLModel.train.  Fewer than `min_samples` rows: warn and return with the
state unchanged (not an error).  Otherwise prepare features and target, align
off the last 5 unlabeled rows, and fit — any exception raised on the way
(feature preparation on a frame missing a base column) is logged and
re-raised, i.e. propagated as `Except.error`.  `fit` abstracts the sklearn
scaler/classifier fitting. -/
noncomputable def trainModel (fit : Frame → List ℝ → Frame → ℚ × ℚ × ℚ)
    (minSamples : ℕ) (m : MLState) (df : Frame) :
    Frame × Except String MLState :=
  if nrows df < minSamples then (df, Except.ok m)
  else
    match prepareFeatures df with
    | (df1, Except.error e) => (df1, Except.error e)
    | (df1, Except.ok feats) =>
      match getCol df1 "target" with
      | none => (df1, Except.error "target")
      | some t =>
        let target := dropLastK 5 (t.filterMap id)
        let featsA := frameDropLast 5 feats
        (df1, Except.ok ⟨true, fit featsA target⟩)

/-! ## Helper lemmas about the simulation loops -/

/-- Splitting a main-loop run at an append. -/
theorem mainLoop_append (cfg : RiskCfg) (st : EngState) (i : ℕ) (l1 l2 : List StepIn) :
    mainLoop cfg st i (l1 ++ l2) = mainLoop cfg (mainLoop cfg st i l1) (i + l1.length) l2 := by
  induction l1 generalizing st i with
  | nil => simp [mainLoop]
  | cons x rest ih =>
    simp only [List.cons_append, mainLoop, List.length_cons, List.append_eq]
    rw [ih]
    congr 1
    omega

/-- A main-loop segment that stays below the warm-up threshold leaves the
state untouched. -/
theorem mainLoop_skip (cfg : RiskCfg) (st : EngState) (i : ℕ) (l : List StepIn)
    (h : i + l.length ≤ 25) : mainLoop cfg st i l = st := by
  induction l generalizing st i with
  | nil => rfl
  | cons x rest ih =>
    simp only [List.length_cons] at h
    rw [mainLoop, if_pos (by omega), ih _ _ (by omega)]

/-- Every executed main-loop step appends exactly one equity sample. -/
theorem mainStep_equity_length (cfg : RiskCfg) (st : EngState) (inp : StepIn) :
    (mainStep cfg st inp).equity.length = st.equity.length + 1 := by
  simp only [mainStep]
  split_ifs <;> simp

/-- The main loop never touches the daily trade counter. -/
theorem mainStep_dailyTrades (cfg : RiskCfg) (st : EngState) (inp : StepIn) :
    (mainStep cfg st inp).dailyTrades = st.dailyTrades := by
  simp only [mainStep]
  split_ifs <;> rfl

/-- Equity-curve growth of a main-loop run: one sample per step at or past the
warm-up threshold. -/
theorem mainLoop_equity_length (cfg : RiskCfg) (st : EngState) (i : ℕ) (l : List StepIn) :
    (mainLoop cfg st i l).equity.length = st.equity.length + (l.length - (25 - i)) := by
  induction l generalizing st i with
  | nil => simp [mainLoop]
  | cons x rest ih =>
    rw [mainLoop]
    split_ifs with h
    · rw [ih]
      simp only [List.length_cons]
      omega
    · rw [ih, mainStep_equity_length]
      simp only [List.length_cons]
      omega

/-- Daily-trade-counter invariance of a main-loop run. -/
theorem mainLoop_dailyTrades (cfg : RiskCfg) (st : EngState) (i : ℕ) (l : List StepIn) :
    (mainLoop cfg st i l).dailyTrades = st.dailyTrades := by
  induction l generalizing st i with
  | nil => rfl
  | cons x rest ih =>
    rw [mainLoop]
    split_ifs with h
    · exact ih _ _
    · rw [ih, mainStep_dailyTrades]

/-- A CoinGecko-loop segment below the warm-up threshold leaves the state
untouched. -/
theorem cgLoop_skip (st : CgState) (i : ℕ) (l : List CgIn)
    (h : i + l.length ≤ 19) : cgLoop st i l = st := by
  induction l generalizing st i with
  | nil => rfl
  | cons x rest ih =>
    simp only [List.length_cons] at h
    rw [cgLoop, if_pos (by omega), ih _ _ (by omega)]

/-- Every executed CoinGecko step appends exactly one equity sample. -/
theorem cgStep_equity_length (st : CgState) (inp : CgIn) :
    (cgStep st inp).equity.length = st.equity.length + 1 := by
  simp only [cgStep, cgUpdateEquity, cgExecuteTrade]
  split_ifs <;> simp

/-- Equity-curve growth of a CoinGecko-loop run. -/
theorem cgLoop_equity_length (st : CgState) (i : ℕ) (l : List CgIn) :
    (cgLoop st i l).equity.length = st.equity.length + (l.length - (19 - i)) := by
  induction l generalizing st i with
  | nil => simp [cgLoop]
  | cons x rest ih =>
    rw [cgLoop]
    split_ifs with h
    · rw [ih]
      simp only [List.length_cons]
      omega
    · rw [ih, cgStep_equity_length]
      simp only [List.length_cons]
      omega

/-! ## Claim theorems -/

/-- C1 (counterexample): on a one-candle input the main engine processes one
simulated (warm-up) step but appends no equity sample, so the equity-curve
length is 1, not steps + 1 = 2: warm-up steps are skipped before the append. -/
theorem C1_counterexample :
    (runBacktest 1000 [⟨0, 100, 0, 0⟩]).equity.length ≠
      [(⟨0, 100, 0, 0⟩ : StepIn)].length + 1 := by
  decide

/-- C1 (amended): the equity curve starts with the initial balance and gains
exactly one snapshot per step at or past the warm-up threshold, and none for a
warm-up step (`continue` fires before the equity append), so its final length
is 1 + (n − 25) for the main engine (warm-up 26) and 1 + (n − 19) for the
CoinGecko engine (warm-up 20), with truncated subtraction. -/
theorem C1_equity_curve_length (b : ℚ) (data : List StepIn) (dataC : List CgIn) :
    (runBacktest b data).equity.length = 1 + (data.length - 25) ∧
      (cgRunBacktest b dataC).equity.length = 1 + (dataC.length - 19) := by
  constructor
  · rw [runBacktest, mainLoop_equity_length]
    simp [initState]
  · rw [cgRunBacktest, cgLoop_equity_length]
    simp [cgInitState]

/-- C2 (counterexample): a concrete run in which the loop, flat and fused
Long at the first post-warm-up step, opens a position of size 50 > 0, yet the
daily trade counter stays 0: the loop sizes via
RiskManager.calculate_position_size but never calls
RiskManager.update_position, so no entry increments the counter. -/
theorem C2_counterexample :
    (runBacktest 1000 (List.replicate 25 ⟨0, 100, 0, 0⟩ ++ [⟨25, 100, 1, 0⟩])).position = 50 ∧
      (runBacktest 1000 (List.replicate 25 ⟨0, 100, 0, 0⟩ ++ [⟨25, 100, 1, 0⟩])).dailyTrades = 0 := by
  have h : runBacktest 1000 (List.replicate 25 ⟨0, 100, 0, 0⟩ ++ [⟨25, 100, 1, 0⟩]) =
      mainStep mainCfg (initState 1000) ⟨25, 100, 1, 0⟩ := by
    rw [runBacktest, mainLoop_append,
      mainLoop_skip mainCfg (initState 1000) 0 (List.replicate 25 ⟨0, 100, 0, 0⟩) (by simp)]
    simp [mainLoop]
  rw [h]
  constructor <;>
    norm_num [mainStep, initState, mainCfg, fuseSignal, calculatePositionSize, min_def]

/-- C2 (amended): at a step where the state is FLAT and the fused signal is
non-neutral, the loop sizes via the risk component and sets the position to
the (signed) returned size — hence it leaves FLAT exactly when the size is
nonzero, and a strictly positive size opens a LONG/SHORT position — and it
records the entry price and entry time; but no entry ever increments the
daily trade counter: the counter is preserved by every step, stays 0 over any
whole run, and only RiskManager.update_position (which the loop never calls)
increments it. -/
theorem C2_entry_effects :
    (∀ (cfg : RiskCfg) (st : EngState) (inp : StepIn),
      st.position = 0 → fuseSignal inp.macd inp.ml ≠ 0 →
      (mainStep cfg st inp).position =
          (if 0 < fuseSignal inp.macd inp.ml then
            calculatePositionSize st.dailyTrades cfg.maxDailyTrades st.balance
              inp.close 1 cfg.baseRisk cfg.maxRisk
          else
            -calculatePositionSize st.dailyTrades cfg.maxDailyTrades st.balance
              inp.close 1 cfg.baseRisk cfg.maxRisk) ∧
        (mainStep cfg st inp).entryPrice = inp.close ∧
        (mainStep cfg st inp).entryDate = inp.ts ∧
        (0 < calculatePositionSize st.dailyTrades cfg.maxDailyTrades st.balance
            inp.close 1 cfg.baseRisk cfg.maxRisk →
          (mainStep cfg st inp).position ≠ 0) ∧
        (mainStep cfg st inp).dailyTrades = st.dailyTrades) ∧
      (∀ (b : ℚ) (data : List StepIn), (runBacktest b data).dailyTrades = 0) ∧
      (∀ (rs : RiskState) (sym : String) (e c s : ℚ) (n : ℕ),
        (updatePosition rs sym e c s n).dailyTrades = rs.dailyTrades + 1) := by
  refine ⟨fun cfg st inp hflat hfs => ?_, fun b data => ?_, fun rs sym e c s n => rfl⟩
  · have hcond : (fuseSignal inp.macd inp.ml ≠ 0 ∧ st.position = 0) := ⟨hfs, hflat⟩
    refine ⟨?_, ?_, ?_, fun hsz => ?_, ?_⟩ <;>
      simp only [mainStep, if_pos hcond] <;> try trivial
    split_ifs with hpos
    · exact ne_of_gt hsz
    · exact ne_of_lt (neg_lt_zero.mpr hsz)
  · rw [runBacktest, mainLoop_dailyTrades]
    rfl

/-- C2 (witness): the amended step-level facts at a concrete flat state and
Long-fused input. -/
theorem C2_witness :
    (mainStep mainCfg (initState 1000) ⟨25, 100, 1, 0⟩).entryPrice = 100 ∧
      (mainStep mainCfg (initState 1000) ⟨25, 100, 1, 0⟩).dailyTrades = 0 := by
  have h := (C2_entry_effects.1 mainCfg (initState 1000) ⟨25, 100, 1, 0⟩ rfl
    (by norm_num [fuseSignal]))
  exact ⟨h.2.1, h.2.2.2.2⟩

/-- C3: the fused signal is the Long-priority OR of the two sources — Long if
either source is Long, else Short if either is Short, else Neutral — and in
particular a Long/Short disagreement resolves to Long, in both orders. -/
theorem C3_signal_fusion (a b : ℚ) (ha : a = -1 ∨ a = 0 ∨ a = 1)
    (hb : b = -1 ∨ b = 0 ∨ b = 1) :
    fuseSignal a b = (if a = 1 ∨ b = 1 then 1 else if a = -1 ∨ b = -1 then -1 else 0) ∧
      fuseSignal 1 (-1) = 1 ∧ fuseSignal (-1) 1 = 1 := by
  refine ⟨?_, by norm_num [fuseSignal], by norm_num [fuseSignal]⟩
  rcases ha with h | h | h <;> rcases hb with h2 | h2 | h2 <;>
    subst h <;> subst h2 <;> norm_num [fuseSignal]

/-- C3 (witness): fusion at the concrete disagreement input. -/
theorem C3_witness : fuseSignal 1 (-1) = 1 :=
  (C3_signal_fusion 1 (-1) (by norm_num) (by norm_num)).2.1

/-- C6: on any input shorter than the warm-up length (26 candles for the main
engine, 20 for the CoinGecko engine) every step is skipped: the final state —
and the state after every prefix — equals the initial state, so no trade is
ever opened, the trade log is empty and the equity curve is the one-element
constant repetition of the initial balance. -/
theorem C6_short_input_no_trades (b : ℚ) (data : List StepIn) (dataC : List CgIn) :
    (data.length < 26 →
      (∀ k, runBacktest b (data.take k) = initState b) ∧
        (runBacktest b data).trades = [] ∧
        (runBacktest b data).equity = List.replicate 1 b) ∧
      (dataC.length < 20 →
        (∀ k, cgRunBacktest b (dataC.take k) = cgInitState b) ∧
          (cgRunBacktest b dataC).trades = [] ∧
          (cgRunBacktest b dataC).equity = List.replicate 1 b) := by
  constructor
  · intro h
    have hall : ∀ k, runBacktest b (data.take k) = initState b := by
      intro k
      rw [runBacktest, mainLoop_skip]
      simp only [List.length_take, Nat.zero_add]
      omega
    refine ⟨hall, ?_, ?_⟩
    · have := hall data.length
      rw [List.take_length] at this
      rw [this]
      rfl
    · have := hall data.length
      rw [List.take_length] at this
      rw [this]
      rfl
  · intro h
    have hall : ∀ k, cgRunBacktest b (dataC.take k) = cgInitState b := by
      intro k
      rw [cgRunBacktest, cgLoop_skip]
      simp only [List.length_take, Nat.zero_add]
      omega
    refine ⟨hall, ?_, ?_⟩
    · have := hall dataC.length
      rw [List.take_length] at this
      rw [this]
      rfl
    · have := hall dataC.length
      rw [List.take_length] at this
      rw [this]
      rfl

/-- C6 (witness): a concrete three-candle run of each engine stays at the
initial state. -/
theorem C6_witness :
    (runBacktest 1000 (List.replicate 3 ⟨0, 100, 1, 0⟩)).trades = [] ∧
      (cgRunBacktest 1000 (List.replicate 3 ⟨0, 100, 1⟩)).equity = List.replicate 1 1000 :=
  ⟨((C6_short_input_no_trades 1000 (List.replicate 3 ⟨0, 100, 1, 0⟩) []).1 (by simp)).2.1,
    ((C6_short_input_no_trades 1000 [] (List.replicate 3 ⟨0, 100, 1⟩)).2 (by simp)).2.2⟩

/-- C7: below the daily trade limit, calculate_position_size returns
`balance * (base + (max − base) * confidence) / 100` capped at the balance
(hence never exceeding the balance); at or past the limit it returns 0; and
the spec scenario balance 1000, base 1, max 5, confidence 1 yields 50. -/
theorem C7_position_sizing (d m : ℕ) (bal price conf br mr : ℚ) :
    (d < m →
      calculatePositionSize d m bal price conf br mr =
          min (bal * ((br + (mr - br) * conf) / 100)) bal ∧
        calculatePositionSize d m bal price conf br mr ≤ bal) ∧
      (m ≤ d → calculatePositionSize d m bal price conf br mr = 0) ∧
      calculatePositionSize 0 100 1000 price 1 1 5 = 50 := by
  refine ⟨fun h => ?_, fun h => ?_, ?_⟩
  · rw [calculatePositionSize, if_neg (by omega)]
    exact ⟨rfl, min_le_right _ _⟩
  · rw [calculatePositionSize, if_pos h]
  · rw [calculatePositionSize, if_neg (by omega)]
    norm_num [min_def]

/-- C7 (witness): the concrete spec scenario, with the cap check. -/
theorem C7_witness :
    calculatePositionSize 0 100 1000 50 1 1 5 = 50 ∧
      calculatePositionSize 0 100 1000 50 1 1 5 ≤ 1000 :=
  ⟨(C7_position_sizing 0 100 1000 50 1 1 5).2.2,
    ((C7_position_sizing 0 100 1000 50 1 1 5).1 (by omega)).2⟩

/-! ## Drawdown lemmas -/

/-- Spec drawdown terms are the negated, percent-scaled engine terms. -/
theorem specDDTerms_eq_neg (p : ℚ) (l : List ℚ) :
    specDDTerms p l = (ddTerms p l).map (fun x => -(x * 100)) := by
  induction l generalizing p with
  | nil => rfl
  | cons v rest ih =>
    simp only [specDDTerms, ddTerms, List.map_cons, ih]
    congr 1
    ring

/-- Negating and scaling by 100 swaps a running minimum into a running
maximum. -/
theorem foldl_max_neg_scale (l : List ℚ) (a : ℚ) :
    (l.map (fun x => -(x * 100))).foldl max (-(a * 100)) = -(l.foldl min a * 100) := by
  induction l generalizing a with
  | nil => rfl
  | cons x rest ih =>
    simp only [List.map_cons, List.foldl_cons]
    rw [show max (-(a * 100)) (-(x * 100)) = -(min a x * 100) by
      rcases le_total a x with h | h
      · rw [min_eq_left h, max_eq_left (by nlinarith)]
      · rw [min_eq_right h, max_eq_right (by nlinarith)]]
    exact ih (min a x)

/-- The seed bounds a maximum fold from below. -/
theorem le_foldl_max (l : List ℚ) (b : ℚ) : b ≤ l.foldl max b := by
  induction l generalizing b with
  | nil => exact le_refl b
  | cons x rest ih => exact le_trans (le_max_left b x) (ih (max b x))

/-- The CoinGecko drawdown loop is a maximum fold over the spec drawdown
terms. -/
theorem cg_fold_eq_foldl_max (l : List ℚ) (p m : ℚ) :
    (l.foldl (fun pm v =>
      let q := max pm.1 v
      (q, max pm.2 ((q - v) / q * 100))) (p, m)).2 =
      (specDDTerms p l).foldl max m := by
  induction l generalizing p m with
  | nil => rfl
  | cons v rest ih => simp only [List.foldl_cons, specDDTerms, ih]

/-- Along a nondecreasing tail whose head dominates the running peak, every
engine drawdown term is zero. -/
theorem ddTerms_of_monotone (l : List ℚ) (p : ℚ)
    (hle : ∀ x ∈ l.head?, p ≤ x) (hchain : l.Chain' (· ≤ ·)) :
    ddTerms p l = List.replicate l.length 0 := by
  induction l generalizing p with
  | nil => rfl
  | cons v rest ih =>
    have hpv : p ≤ v := hle v rfl
    have h1 : max p v = v := max_eq_right hpv
    simp only [ddTerms, h1, List.length_cons, List.replicate_succ, sub_self, zero_div]
    rw [List.chain'_cons'] at hchain
    rw [ih v hchain.1 hchain.2]

/-- Minimum fold over an all-zero list is the minimum of the seed and zero. -/
theorem foldl_min_replicate_zero (n : ℕ) (a : ℚ) :
    (List.replicate n (0 : ℚ)).foldl min a = min a 0 ∨
      ((List.replicate n (0 : ℚ)).foldl min a = a ∧ n = 0) := by
  induction n generalizing a with
  | zero => exact Or.inr ⟨rfl, rfl⟩
  | succ k ih =>
    simp only [List.replicate_succ, List.foldl_cons]
    rcases ih (min a 0) with h | ⟨h, hk⟩
    · left
      rw [h, min_assoc, min_self]
    · left
      rw [h]

/-- Engine drawdown relates to the spec formula by negation and scaling. -/
theorem maxDrawdownMain_eq_neg_spec (e : List ℚ) :
    maxDrawdownMain e * 100 = -specMaxDrawdown e := by
  cases e with
  | nil => simp [maxDrawdownMain, specMaxDrawdown]
  | cons v rest =>
    have hd : ddTerms v (v :: rest) = 0 :: ddTerms v rest := by
      simp [ddTerms, max_self, sub_self, zero_div]
    have hs : specDDTerms v (v :: rest) = 0 :: specDDTerms v rest := by
      simp [specDDTerms, max_self, sub_self, zero_div]
    rw [maxDrawdownMain, specMaxDrawdown, hd, hs, specDDTerms_eq_neg, minD, maxD]
    rw [show (0 : ℚ) = -(0 * 100) by norm_num, foldl_max_neg_scale]
    ring

/-- The spec drawdown maximum is nonnegative (the running peak term for the
first sample is 0 and the fold only grows). -/
theorem specMaxDrawdown_nonneg (e : List ℚ) : 0 ≤ specMaxDrawdown e := by
  cases e with
  | nil => exact le_refl 0
  | cons v rest =>
    have hs : specDDTerms v (v :: rest) = 0 :: specDDTerms v rest := by
      simp [specDDTerms, max_self, sub_self, zero_div]
    rw [specMaxDrawdown, hs, maxD]
    exact le_foldl_max _ 0

/-- The CoinGecko drawdown equals the spec formula. -/
theorem cgMaxDrawdown_eq_spec (e : List ℚ) : cgMaxDrawdown e = specMaxDrawdown e := by
  cases e with
  | nil => rfl
  | cons v rest =>
    have hs : specDDTerms v (v :: rest) = 0 :: specDDTerms v rest := by
      simp [specDDTerms, max_self, sub_self, zero_div]
    rw [cgMaxDrawdown, cg_fold_eq_foldl_max]
    simp only [List.headD_cons]
    rw [specMaxDrawdown, hs, maxD]
    simp only [List.foldl_cons, max_self]

/-- On a nondecreasing equity curve the engine drawdown is zero. -/
theorem maxDrawdownMain_of_monotone (e : List ℚ) (h : e.Chain' (· ≤ ·)) :
    maxDrawdownMain e = 0 := by
  cases e with
  | nil => rfl
  | cons v rest =>
    have hterms : ddTerms v (v :: rest) = List.replicate (v :: rest).length 0 :=
      ddTerms_of_monotone (v :: rest) v (by simp) h
    rw [maxDrawdownMain, hterms]
    simp only [List.length_cons, List.replicate_succ, minD]
    rcases foldl_min_replicate_zero rest.length 0 with h0 | ⟨h0, _⟩
    · rw [h0, min_self]
    · exact h0

/-- C4 (counterexample): with one completed trade and the equity curve
[1000, 900], calculate_metrics reports max_drawdown = −10, whereas the claimed
formula (max of (peak − value)/peak as a percentage) gives +10; the reported
value is the negation of the claim and is not nonnegative. -/
theorem C4_counterexample :
    (calculateMetrics [⟨0, 100, 50, true, 1, 98, -100, -10⟩] [1000, 900] 900 1000).maxDrawdown = -10 ∧
      specMaxDrawdown [1000, 900] = 10 := by
  constructor
  · norm_num [calculateMetrics, maxDrawdownMain, ddTerms, minD, max_def, min_def]
  · norm_num [specMaxDrawdown, specDDTerms, maxD, max_def]

/-- C4 (amended): BacktestEngine.calculate_metrics reports
`drawdowns.min() * 100`, which is the NEGATION of the claimed
max-of-(peak−value)/peak percentage — hence non-positive, and 0 whenever the
equity curve is nondecreasing — while CoinGeckoBacktestEngine._calculate_metrics
reports exactly the claimed formula, hence nonnegative, and 0 on a
nondecreasing curve. -/
theorem C4_max_drawdown (equity : List ℚ) (trades : List TradeRec) (cb ib : ℚ) :
    (trades ≠ [] →
      (calculateMetrics trades equity cb ib).maxDrawdown = maxDrawdownMain equity * 100) ∧
      maxDrawdownMain equity * 100 = -specMaxDrawdown equity ∧
      cgMaxDrawdown equity = specMaxDrawdown equity ∧
      maxDrawdownMain equity * 100 ≤ 0 ∧
      0 ≤ cgMaxDrawdown equity ∧
      (equity.Chain' (· ≤ ·) →
        maxDrawdownMain equity * 100 = 0 ∧ cgMaxDrawdown equity = 0) := by
  refine ⟨fun h => ?_, maxDrawdownMain_eq_neg_spec equity, cgMaxDrawdown_eq_spec equity,
    ?_, ?_, fun hchain => ?_⟩
  · cases trades with
    | nil => exact absurd rfl h
    | cons t ts => rfl
  · rw [maxDrawdownMain_eq_neg_spec]
    simp [specMaxDrawdown_nonneg equity]
  · rw [cgMaxDrawdown_eq_spec]
    exact specMaxDrawdown_nonneg equity
  · constructor
    · rw [maxDrawdownMain_of_monotone equity hchain]
      ring
    · rw [cgMaxDrawdown_eq_spec]
      have := maxDrawdownMain_eq_neg_spec equity
      rw [maxDrawdownMain_of_monotone equity hchain] at this
      linarith

/-- C4 (witness): the amended facts at concrete inputs — the reported field on
a falling curve with one trade, and zero drawdown on a nondecreasing curve. -/
theorem C4_witness :
    (calculateMetrics [⟨0, 100, 50, true, 1, 98, -100, -10⟩] [1000, 900] 900 1000).maxDrawdown =
        maxDrawdownMain [1000, 900] * 100 ∧
      maxDrawdownMain [1000, 1000] * 100 = 0 ∧ cgMaxDrawdown [1000, 1000] = 0 :=
  ⟨(C4_max_drawdown [1000, 900] [⟨0, 100, 50, true, 1, 98, -100, -10⟩] 900 1000).1
      (by simp),
    (C4_max_drawdown [1000, 1000] [] 0 0).2.2.2.2.2
      (by simp)⟩

/-- C9 (counterexample): two completed trades with pnl 5 and pnl 0 — zero
losing trades and at least one winning trade — yield win_rate 50%, not 100%,
because a zero-pnl trade counts in the denominator but not as a winner (the
profit factor is still the infinity sentinel). -/
theorem C9_counterexample :
    (calculateMetrics [⟨0, 0, 0, true, 0, 0, 5, 5⟩, ⟨0, 0, 0, true, 0, 0, 0, 0⟩]
        [1000] 1000 1000).winRate = 50 ∧
      (calculateMetrics [⟨0, 0, 0, true, 0, 0, 5, 5⟩, ⟨0, 0, 0, true, 0, 0, 0, 0⟩]
        [1000] 1000 1000).profitFactor = none ∧
      (∀ t ∈ [(⟨0, 0, 0, true, 0, 0, 5, 5⟩ : TradeRec), ⟨0, 0, 0, true, 0, 0, 0, 0⟩],
        ¬t.pnl < 0) ∧
      (0 : ℚ) < (⟨0, 0, 0, true, 0, 0, 5, 5⟩ : TradeRec).pnl := by
  refine ⟨?_, ?_, ?_, by norm_num⟩
  · norm_num [calculateMetrics, List.filter]
  · norm_num [calculateMetrics, List.filter]
  · intro t ht
    rcases List.mem_cons.mp ht with h | h
    · subst h; norm_num
    · rcases List.mem_cons.mp h with h2 | h2
      · subst h2; norm_num
      · exact absurd h2 (List.not_mem_nil t)

/-- C9 (amended): with no completed trades, calculate_metrics returns
total_trades = 0 and 0 for every derived metric (the profit factor sentinel
`some 0`) instead of raising; with zero losing trades and at least one
winning trade the profit factor is the positive-infinity sentinel (`none`);
and the win rate is 100% when EVERY completed trade is winning (a zero-pnl
trade lowers it below 100%). -/
theorem C9_metrics_defaults :
    (∀ (e : List ℚ) (cb ib : ℚ), calculateMetrics [] e cb ib = ⟨0, 0, some 0, 0, 0, 0⟩) ∧
      (∀ (trades : List TradeRec) (e : List ℚ) (cb ib : ℚ), trades ≠ [] →
        (∀ t ∈ trades, ¬t.pnl < 0) → (∃ t ∈ trades, 0 < t.pnl) →
        (calculateMetrics trades e cb ib).profitFactor = none) ∧
      (∀ (trades : List TradeRec) (e : List ℚ) (cb ib : ℚ), trades ≠ [] →
        (∀ t ∈ trades, 0 < t.pnl) →
        (calculateMetrics trades e cb ib).winRate = 100) := by
  refine ⟨fun e cb ib => rfl, fun trades e cb ib hne hno _ => ?_, fun trades e cb ib hne hall => ?_⟩
  · cases trades with
    | nil => exact absurd rfl hne
    | cons t ts =>
      have hfil : (t :: ts).filter (fun x => decide (x.pnl < 0)) = [] := by
        rw [List.filter_eq_nil_iff]
        intro a ha
        simpa using hno a ha
      simp [calculateMetrics, hfil]
  · cases trades with
    | nil => exact absurd rfl hne
    | cons t ts =>
      have hfil : (t :: ts).filter (fun x => decide (0 < x.pnl)) = t :: ts := by
        rw [List.filter_eq_self]
        intro a ha
        simpa using hall a ha
      have hlen : ((t :: ts).length : ℚ) ≠ 0 := by
        simp only [List.length_cons]
        positivity
      simp only [calculateMetrics, hfil]
      rw [div_self hlen]
      norm_num

/-- C9 (witness): the amended facts at concrete inputs — the zero-trade
record, and the sentinel plus 100% win rate on a single winning trade. -/
theorem C9_witness :
    calculateMetrics [] [1000] 1000 1000 = ⟨0, 0, some 0, 0, 0, 0⟩ ∧
      (calculateMetrics [⟨0, 0, 0, true, 0, 0, 5, 5⟩] [1000] 1005 1000).profitFactor = none ∧
      (calculateMetrics [⟨0, 0, 0, true, 0, 0, 5, 5⟩] [1000] 1005 1000).winRate = 100 :=
  ⟨C9_metrics_defaults.1 [1000] 1000 1000,
    C9_metrics_defaults.2.1 [⟨0, 0, 0, true, 0, 0, 5, 5⟩] [1000] 1005 1000 (by simp)
      (by norm_num) ⟨⟨0, 0, 0, true, 0, 0, 5, 5⟩, by simp, by norm_num⟩,
    C9_metrics_defaults.2.2 [⟨0, 0, 0, true, 0, 0, 5, 5⟩] [1000] 1005 1000 (by simp)
      (by norm_num)⟩

/-! ## Frame lemmas -/

/-- Column lookup after column assignment. -/
theorem getCol_setCol (df : Frame) (n : String) (c : Col) (m : String) :
    getCol (setCol df n c) m = if m = n then some c else getCol df m := by
  induction df with
  | nil =>
    simp only [setCol, getCol]
    rcases eq_or_ne m n with h | h
    · subst h; simp
    · simp [h, Ne.symm h]
  | cons p rest ih =>
    obtain ⟨k, c0⟩ := p
    simp only [setCol]
    rcases eq_or_ne k n with hk | hk
    · subst hk
      simp only [if_pos rfl, getCol]
      rcases eq_or_ne k m with hm | hm
      · subst hm; simp
      · simp [hm, hm.symm]
    · rw [if_neg hk]
      simp only [getCol, ih]
      rcases eq_or_ne k m with hm | hm
      · subst hm
        simp [hk]
      · simp [hm]

/-- C5 (counterexample): a 100-row frame with a close column but no volume
column satisfies the train length check, and the feature-computation failure
(missing 'volume') is NOT caught by MLModel.train: it propagates as an error
(the source logs and re-raises), contradicting the claim for the train path. -/
theorem C5_counterexample :
    isErr (trainModel (fun _ _ => fun _ => (0, 0, 0)) 100 ⟨false, fun _ => (0, 0, 0)⟩
        [("close", List.replicate 100 (some (1 : ℝ)))]).2 = true := by
  rfl

/-- C5 (amended): on the predict path every failure is surfaced as
(Neutral, 0.0) — an untrained model returns (0, 0) without touching the frame,
and a trained model whose feature preparation raises catches the error and
returns (0, 0) — but on the train path a feature-preparation error is
re-raised by MLModel.train and propagates to the caller (the simulation loop
calls train without a handler). -/
theorem C5_model_error_handling :
    (∀ (m : MLState) (df : Frame), m.isTrained = false → predictModel m df = (df, (0, 0))) ∧
      (∀ (m : MLState) (df : Frame) (e : String), m.isTrained = true →
        (prepareFeatures df).2 = Except.error e →
        predictModel m df = ((prepareFeatures df).1, (0, 0))) ∧
      (∀ (fit : Frame → List ℝ → Frame → ℚ × ℚ × ℚ) (minS : ℕ) (m : MLState)
        (df : Frame) (e : String), minS ≤ nrows df →
        (prepareFeatures df).2 = Except.error e →
        (trainModel fit minS m df).2 = Except.error e) := by
  refine ⟨fun m df h => ?_, fun m df e h h2 => ?_, fun fit minS m df e h h2 => ?_⟩
  · simp [predictModel, h]
  · rcases hpf : prepareFeatures df with ⟨df1, r⟩
    rw [hpf] at h2
    simp only at h2
    subst h2
    simp [predictModel, h, hpf]
  · rcases hpf : prepareFeatures df with ⟨df1, r⟩
    rw [hpf] at h2
    simp only at h2
    subst h2
    rw [trainModel, if_neg (not_lt.mpr h), hpf]

/-- C5 (witness): the amended facts at concrete inputs — an untrained predict,
a trained predict over a frame with no columns (feature preparation fails on
the missing close column and is caught), and the failing train at the same
frame with the length gate passed. -/
theorem C5_witness :
    predictModel ⟨false, fun _ => (0, 0, 0)⟩ [("close", [some (1 : ℝ)])] =
        ([("close", [some (1 : ℝ)])], (0, 0)) ∧
      predictModel ⟨true, fun _ => (0, 0, 0)⟩ [] = ([], (0, 0)) ∧
      (trainModel (fun _ _ => fun _ => (0, 0, 0)) 0 ⟨false, fun _ => (0, 0, 0)⟩ []).2 =
        Except.error "close" :=
  ⟨C5_model_error_handling.1 ⟨false, fun _ => (0, 0, 0)⟩ [("close", [some (1 : ℝ)])] rfl,
    C5_model_error_handling.2.1 ⟨true, fun _ => (0, 0, 0)⟩ [] "close" rfl rfl,
    C5_model_error_handling.2.2 (fun _ _ => fun _ => (0, 0, 0)) 0
      ⟨false, fun _ => (0, 0, 0)⟩ [] "close" (Nat.zero_le _) rfl⟩

/-- C10 (counterexample): calling predict on an untrained model returns the
caller's frame entirely unchanged — in particular no target column is written
— so it is not the case that every train/predict call mutates the
price-history DataFrame. -/
theorem C10_counterexample :
    predictModel ⟨false, fun _ => (0, 0, 0)⟩
        [("close", [some (1 : ℝ)]), ("volume", [some (1 : ℝ)])] =
        ([("close", [some (1 : ℝ)]), ("volume", [some (1 : ℝ)])], (0, 0)) ∧
      hasCol (predictModel ⟨false, fun _ => (0, 0, 0)⟩
          [("close", [some (1 : ℝ)]), ("volume", [some (1 : ℝ)])]).1 "target" = false := by
  exact ⟨rfl, rfl⟩

/-- C10 (amended): whenever prepare_features actually runs to completion — on
predict with a trained model, or on train with at least min_samples rows — it
writes the target column and the ten indicator columns into the caller's
frame in place (all other columns unchanged), so a frame that lacked a target
column is visibly mutated; but an untrained predict (and a too-short train)
returns before feature preparation and leaves the frame untouched. -/
theorem C10_prepare_features_mutation (df : Frame) (m : MLState)
    (fit : Frame → List ℝ → Frame → ℚ × ℚ × ℚ) (minS : ℕ) (c v : Col)
    (hc : getCol df "close" = some c) (hv : getCol df "volume" = some v) :
    isErr (prepareFeatures df).2 = false ∧
      (∀ n ∈ writtenNames, hasCol (prepareFeatures df).1 n = true) ∧
      (∀ n, n ∉ writtenNames → getCol (prepareFeatures df).1 n = getCol df n) ∧
      (hasCol df "target" = false → (prepareFeatures df).1 ≠ df) ∧
      (m.isTrained = true → (predictModel m df).1 = (prepareFeatures df).1) ∧
      (minS ≤ nrows df → (trainModel fit minS m df).1 = (prepareFeatures df).1) := by
  have hv4 : getCol (setCol (setCol (setCol (setCol df "target" (targetCol c))
      "returns" (returnsCol c)) "log_returns" (logReturnsCol c))
      "volatility" (volatilityCol c)) "volume" = some v := by
    simp [getCol_setCol, hv]
  have htar : getCol (prepareFeatures df).1 "target" = some (targetCol c) := by
    simp only [prepareFeatures, hc, hv4]
    simp [getCol_setCol]
  refine ⟨?_, ?_, ?_, ?_, ?_, ?_⟩
  · simp only [prepareFeatures, hc, hv4]
    rfl
  · intro n hn
    fin_cases hn <;> simp only [prepareFeatures, hc, hv4] <;>
      simp [hasCol, getCol_setCol]
  · intro n hn
    simp only [writtenNames, List.mem_cons, not_or, List.not_mem_nil] at hn
    obtain ⟨h1, h2, h3, h4, h5, h6, h7, h8, h9, h10, h11, -⟩ := hn
    simp only [prepareFeatures, hc, hv4]
    simp [getCol_setCol, h1, h2, h3, h4, h5, h6, h7, h8, h9, h10, h11]
  · intro ht heq
    rw [heq] at htar
    rw [hasCol, htar] at ht
    simp at ht
  · intro h
    simp only [predictModel, h, Bool.true_eq_false, if_false]
    simp only [prepareFeatures, hc, hv4]
    split_ifs <;> rfl
  · intro h
    rw [trainModel, if_neg (not_lt.mpr h)]
    simp only [prepareFeatures, hc, hv4]
    simp [getCol_setCol]

/-- C10 (witness): the amended facts at a concrete one-row frame with close
and volume columns: feature preparation succeeds and writes the target column
into the caller's frame. -/
theorem C10_witness :
    isErr (prepareFeatures [("close", [some (1 : ℝ)]), ("volume", [some (1 : ℝ)])]).2 = false ∧
      hasCol (prepareFeatures [("close", [some (1 : ℝ)]),
        ("volume", [some (1 : ℝ)])]).1 "target" = true :=
  ⟨(C10_prepare_features_mutation [("close", [some (1 : ℝ)]), ("volume", [some (1 : ℝ)])]
      ⟨false, fun _ => (0, 0, 0)⟩ (fun _ _ => fun _ => (0, 0, 0)) 0 _ _ rfl rfl).1,
    (C10_prepare_features_mutation [("close", [some (1 : ℝ)]), ("volume", [some (1 : ℝ)])]
      ⟨false, fun _ => (0, 0, 0)⟩ (fun _ _ => fun _ => (0, 0, 0)) 0 _ _ rfl rfl).2.1
      "target" (by simp [writtenNames])⟩

/-! ## Strategy lemmas -/

/-- Last element of a map over an index range. -/
theorem getLastD_map_range (f : ℕ → Int) (n : ℕ) (hn : 0 < n) (d : Int) :
    ((List.range n).map f).getLastD d = f (n - 1) := by
  obtain ⟨m, rfl⟩ : ∃ m, n = m + 1 := ⟨n - 1, by omega⟩
  rw [List.range_succ, List.map_append, List.map_singleton, List.getLastD_concat]
  simp

/-- The trade recommendation of a nonempty window is the last signal-column
entry with its binary confidence. -/
theorem getTradeRecommendation_eq (w : ℕ) (k : ℚ) (closes : List ℚ)
    (h : 0 < closes.length) :
    getTradeRecommendation w k closes =
      ((bbSignalCol w k closes).getLastD 0,
        if (bbSignalCol w k closes).getLastD 0 ≠ 0 then 1 else 0) := by
  cases closes with
  | nil => simp at h
  | cons a rest => rfl

/-- The last signal-column entry is the signal of the last row. -/
theorem bbSignalCol_getLastD (w : ℕ) (k : ℚ) (closes : List ℚ)
    (h : 0 < closes.length) :
    (bbSignalCol w k closes).getLastD 0 = bbRowSignal w k closes (closes.length - 1) := by
  rw [bbSignalCol, getLastD_map_range _ _ h]

/-- The last row's getD entry is the last element. -/
theorem getD_last_eq_getLastD (closes : List ℚ) (h : 0 < closes.length) :
    closes.getD (closes.length - 1) 0 = closes.getLastD 0 := by
  rw [List.getD_eq_getElem?_getD, List.getLastD_eq_getLast?, List.getLast?_eq_getElem?]

/-- With at least `w` closes, the last row's signal compares the last close
against the rolling mean and upper band of the last `w` closes, the sell
override first. -/
theorem bbRowSignal_last (w : ℕ) (k : ℚ) (closes : List ℚ) (hw : 0 < w)
    (hlen : w ≤ closes.length) :
    bbRowSignal w k closes (closes.length - 1) =
      (if ((qMean (closes.drop (closes.length - w)) : ℝ) + (k : ℝ) *
            Real.sqrt ((qVarPop (closes.drop (closes.length - w)) : ℚ) : ℝ)) ≤
          (closes.getLastD 0 : ℝ) then -1
        else if closes.getLastD 0 ≤ qMean (closes.drop (closes.length - w)) then 1
        else 0) := by
  have hlen0 : 0 < closes.length := lt_of_lt_of_le hw hlen
  have h1 : closes.length - 1 + 1 = closes.length := by omega
  rw [bbRowSignal, if_neg (by omega)]
  rw [show rollWindow w (closes.length - 1) closes = closes.drop (closes.length - w) by
    rw [rollWindow, h1, List.take_length]]
  rw [getD_last_eq_getLastD closes hlen0]

/-- C8 (counterexample): on a window of ten identical closes the middle band
equals the close (the Long condition close ≤ middle holds) and the upper band
also equals the close (zero deviation), and the strategy emits Short (-1),
not Long: the sell assignment overwrites the buy assignment. -/
theorem C8_counterexample :
    getTradeRecommendation 10 (1 / 2)
        [100, 100, 100, 100, 100, 100, 100, 100, 100, 100] = (-1, 1) ∧
      ([100, 100, 100, 100, 100, 100, 100, 100, 100, 100] : List ℚ).getLastD 0 ≤
        qMean ([100, 100, 100, 100, 100, 100, 100, 100, 100, 100] : List ℚ) := by
  have hm : qMean ([100, 100, 100, 100, 100, 100, 100, 100, 100, 100] : List ℚ) = 100 := by
    norm_num [qMean]
  have hv : qVarPop ([100, 100, 100, 100, 100, 100, 100, 100, 100, 100] : List ℚ) = 0 := by
    norm_num [qVarPop, qMean]
  constructor
  · rw [getTradeRecommendation_eq 10 (1 / 2) _ (by norm_num),
      bbSignalCol_getLastD _ _ _ (by norm_num),
      bbRowSignal_last _ _ _ (by norm_num) (by norm_num)]
    have hd : ([100, 100, 100, 100, 100, 100, 100, 100, 100, 100] : List ℚ).drop
        (([100, 100, 100, 100, 100, 100, 100, 100, 100, 100] : List ℚ).length - 10) =
        [100, 100, 100, 100, 100, 100, 100, 100, 100, 100] := by norm_num
    rw [hd, hm, hv]
    rw [if_pos (by
      push_cast
      rw [Real.sqrt_zero]
      norm_num [List.getLastD])]
    norm_num
  · rw [hm]
    norm_num [List.getLastD]

/-- C8 (amended): with fewer than `w` closes the recommendation is Neutral
with confidence 0 (no failure); with at least `w` closes, the confidence is
1.0 exactly when the signal is non-neutral and 0 exactly when it is neutral,
and the signal is Short when the last close reaches the upper band
(mean + k·stddev of the last `w` closes) — this check takes precedence —
else Long when the last close is at most the rolling mean, else Neutral. -/
theorem C8_band_signal (w : ℕ) (k : ℚ) (closes : List ℚ) (hw : 0 < w) :
    (closes.length < w → getTradeRecommendation w k closes = (0, 0)) ∧
      (w ≤ closes.length →
        ((getTradeRecommendation w k closes).2 = 1 ↔
          (getTradeRecommendation w k closes).1 ≠ 0) ∧
        ((getTradeRecommendation w k closes).2 = 0 ↔
          (getTradeRecommendation w k closes).1 = 0) ∧
        ((getTradeRecommendation w k closes).1 = -1 ↔
          ((qMean (closes.drop (closes.length - w)) : ℝ) + (k : ℝ) *
              Real.sqrt ((qVarPop (closes.drop (closes.length - w)) : ℚ) : ℝ)) ≤
            (closes.getLastD 0 : ℝ)) ∧
        ((getTradeRecommendation w k closes).1 = 1 ↔
          (¬((qMean (closes.drop (closes.length - w)) : ℝ) + (k : ℝ) *
              Real.sqrt ((qVarPop (closes.drop (closes.length - w)) : ℚ) : ℝ)) ≤
            (closes.getLastD 0 : ℝ) ∧
            closes.getLastD 0 ≤ qMean (closes.drop (closes.length - w)))) ∧
        ((getTradeRecommendation w k closes).1 = 0 ↔
          (¬((qMean (closes.drop (closes.length - w)) : ℝ) + (k : ℝ) *
              Real.sqrt ((qVarPop (closes.drop (closes.length - w)) : ℚ) : ℝ)) ≤
            (closes.getLastD 0 : ℝ) ∧
            ¬closes.getLastD 0 ≤ qMean (closes.drop (closes.length - w))))) := by
  constructor
  · intro h
    rcases Nat.eq_zero_or_pos closes.length with h0 | h0
    · rw [List.length_eq_zero.mp h0]
      rfl
    · rw [getTradeRecommendation_eq _ _ _ h0, bbSignalCol_getLastD _ _ _ h0,
        bbRowSignal, if_pos (by omega)]
      norm_num
  · intro hlen
    have h0 : 0 < closes.length := lt_of_lt_of_le hw hlen
    rw [getTradeRecommendation_eq _ _ _ h0, bbSignalCol_getLastD _ _ _ h0,
      bbRowSignal_last _ _ _ hw hlen]
    rcases em (((qMean (closes.drop (closes.length - w)) : ℝ) + (k : ℝ) *
        Real.sqrt ((qVarPop (closes.drop (closes.length - w)) : ℚ) : ℝ)) ≤
        (closes.getLastD 0 : ℝ)) with h1 | h1
    · rw [if_pos h1]
      refine ⟨by norm_num, by norm_num, iff_of_true rfl h1, ?_, ?_⟩
      · constructor
        · intro habs
          exact absurd habs (by norm_num)
        · rintro ⟨hn, -⟩
          exact absurd h1 hn
      · constructor
        · intro habs
          exact absurd habs (by norm_num)
        · rintro ⟨hn, -⟩
          exact absurd h1 hn
    · rw [if_neg h1]
      rcases em (closes.getLastD 0 ≤ qMean (closes.drop (closes.length - w))) with h2 | h2
      · rw [if_pos h2]
        refine ⟨by norm_num, by norm_num, ?_, iff_of_true rfl ⟨h1, h2⟩, ?_⟩
        · constructor
          · intro habs
            exact absurd habs (by norm_num)
          · intro hA
            exact absurd hA h1
        · constructor
          · intro habs
            exact absurd habs (by norm_num)
          · rintro ⟨-, hB⟩
            exact absurd h2 hB
      · rw [if_neg h2]
        refine ⟨by norm_num, by norm_num, ?_, ?_, iff_of_true rfl ⟨h1, h2⟩⟩
        · constructor
          · intro habs
            exact absurd habs (by norm_num)
          · intro hA
            exact absurd hA h1
        · constructor
          · intro habs
            exact absurd habs (by norm_num)
          · rintro ⟨-, hB⟩
            exact absurd hB h2

/-- C8 (witness): the amended facts at concrete inputs — a three-close window
below the warm-up width yields the Neutral/0 recommendation. -/
theorem C8_witness :
    getTradeRecommendation 10 (1 / 2) [1, 2, 3] = (0, 0) :=
  (C8_band_signal 10 (1 / 2) [1, 2, 3] (by norm_num)).1 (by norm_num)
